import Mathlib

/-!
Verification of the Qore tar module core (`QoreTarFile`, `TarInputStream`,
`TarOutputStream`, module helpers) against its specification.

The C++ sources are shallowly embedded: strings are `List Char` (byte
comparison, as in the non-Apple branches of the code), buffers are
`List UInt8`, the external libarchive coder is modelled through the narrow
interface the code uses (header/data write actions, per-entry data pulls),
and fallible operations return `Except` carrying the module's structured
errors (code plus message).
-/

/-- The structured error raised through the exception sink: a machine
readable code (e.g. "TAR-ERROR", "TAR-SECURITY-ERROR", "STREAM-CLOSED-ERROR")
and a human message. -/
structure QErr where
  code : String
  msg : String
deriving DecidableEq, Repr

/-- Path separators recognised by `isPathSafe` (forward slash and
backslash, as in the C source). -/
def isSep (c : Char) : Bool :=
  c = '/' || c = '\\'

/-- ASCII letter test used by the Windows drive-designator check:
`(path[0] >= 'A' && path[0] <= 'Z') || (path[0] >= 'a' && path[0] <= 'z')`. -/
def isAsciiAlpha (c : Char) : Bool :=
  ('A' ≤ c && c ≤ 'Z') || ('a' ≤ c && c ≤ 'z')

/-- The check on the character following a candidate ".." component:
`p[2] == '\0' || p[2] == '/' || p[2] == '\\'` — the end of string counts
as a boundary, otherwise the character must be a separator. -/
def headBoundary : List Char → Bool
  | [] => true
  | c :: _ => isSep c

/-- Boundary test for the character preceding a position: the start of the
string counts as a boundary (`p == path`), otherwise the previous character
must be a separator (`p[-1] == '/' || p[-1] == '\\'`). Expressed on the
consumed prefix: empty prefix is the string start, otherwise its last
character must be a separator. -/
def lastBoundary : List Char → Bool
  | [] => true
  | [c] => isSep c
  | _ :: c :: rest => lastBoundary (c :: rest)

/-- The `while (*p)` scan of `isPathSafe`: at each position, flag a ".."
whose left neighbour is a boundary (tracked by `atB`: true at the start of
the string, thereafter whether the previous character was a separator) and
whose right neighbour is a boundary. -/
def dotDotScan : Bool → List Char → Bool
  | _, [] => false
  | atB, c :: rest =>
    (decide (c = '.') &&
      (match rest with
       | [] => false
       | d :: rest2 => decide (d = '.') && atB && headBoundary rest2))
    || dotDotScan (isSep c) rest

/-- Embedding of the static helper `isPathSafe` (QoreTarFile.cpp): accepts
the empty path; rejects absolute Unix paths, Windows drive-designator paths,
and any path containing a ".." component bounded by separators or string
edges anywhere in the string. -/
def isPathSafe (path : List Char) : Bool :=
  match path with
  | [] => true
  | c :: rest =>
    if c = '/' then false
    else if isAsciiAlpha c && (match rest with | ':' :: _ => true | _ => false) then false
    else !(dotDotScan true (c :: rest))

/-- `isPathSafe` on a Lean string literal (the C function receives a
NUL-terminated byte string). -/
def isPathSafeS (s : String) : Bool :=
  isPathSafe s.data

/-- Spec-side predicate (from the specification's words): the path contains
a `..` component bounded by separators or string edges. -/
def hasDotDotComponent (path : List Char) : Prop :=
  ∃ pre suf, path = pre ++ '.' :: '.' :: suf ∧
    lastBoundary pre = true ∧ headBoundary suf = true

theorem dotDotScan_step (b : Bool) (c : Char) (l : List Char)
    (h : dotDotScan (isSep c) l = true) : dotDotScan b (c :: l) = true := by
  unfold dotDotScan
  rw [h]
  simp

theorem dotDotScan_append (pre : List Char) :
    ∀ (b : Bool) (suf : List Char), lastBoundary pre = true →
      (pre = [] → b = true) → headBoundary suf = true →
      dotDotScan b (pre ++ '.' :: '.' :: suf) = true := by
  induction pre with
  | nil =>
    intro b suf _ hb hsuf
    rw [hb rfl]
    unfold dotDotScan
    simp [hsuf]
  | cons c pre ih =>
    intro b suf hlast _ hsuf
    show dotDotScan b (c :: (pre ++ '.' :: '.' :: suf)) = true
    apply dotDotScan_step
    cases pre with
    | nil =>
      have hc : isSep c = true := hlast
      exact ih (isSep c) suf rfl (fun _ => hc) hsuf
    | cons c2 pre2 =>
      have hlast2 : lastBoundary (c2 :: pre2) = true := hlast
      exact ih (isSep c) suf hlast2 (by simp) hsuf

theorem isPathSafe_of_hasDotDot (path : List Char)
    (h : hasDotDotComponent path) : isPathSafe path = false := by
  obtain ⟨pre, suf, hpath, hlast, hhead⟩ := h
  have hscan : dotDotScan true (pre ++ '.' :: '.' :: suf) = true :=
    dotDotScan_append pre true suf hlast (fun _ => rfl) hhead
  subst hpath
  cases pre with
  | nil =>
    unfold isPathSafe
    simp only [List.nil_append] at hscan ⊢
    rw [hscan]
    simp
  | cons c pre' =>
    unfold isPathSafe
    simp only [List.cons_append] at hscan ⊢
    by_cases hc : c = '/'
    · simp [hc]
    · rw [if_neg hc]
      by_cases hw : (isAsciiAlpha c &&
          (match pre' ++ '.' :: '.' :: suf with | ':' :: _ => true | _ => false)) = true
      · rw [if_pos hw]
      · rw [if_neg hw, hscan]
        simp

/-- C1: `isPathSafe` rejects every path beginning with '/', every path whose
first character is an ASCII letter followed by ':', and every path containing
a '..' component bounded by separators or string edges; it accepts the empty
path; in particular it gives the documented answers on the six test paths. -/
theorem C1_isPathSafe_characterization :
    (∀ rest : List Char, isPathSafe ('/' :: rest) = false)
    ∧ (∀ (c : Char) (rest : List Char), isAsciiAlpha c = true →
        isPathSafe (c :: ':' :: rest) = false)
    ∧ (∀ path : List Char, hasDotDotComponent path → isPathSafe path = false)
    ∧ isPathSafe [] = true
    ∧ isPathSafeS "/etc/passwd" = false
    ∧ isPathSafeS "../../x" = false
    ∧ isPathSafeS "a/../../b" = false
    ∧ isPathSafeS "a/b/c" = true
    ∧ isPathSafeS "" = true
    ∧ isPathSafeS "C:\\x" = false := by
  refine ⟨?_, ?_, isPathSafe_of_hasDotDot, rfl, ?_, ?_, ?_, ?_, ?_, ?_⟩
  · intro rest
    simp [isPathSafe]
  · intro c rest halpha
    have hc : ¬ (c = '/') := by
      intro h
      rw [h] at halpha
      exact absurd halpha (by decide)
    show (if c = '/' then false
        else if (isAsciiAlpha c && true) = true then false
        else !(dotDotScan true (c :: ':' :: rest))) = false
    rw [if_neg hc, if_pos (by simp [halpha])]
  · decide
  · decide
  · decide
  · decide
  · decide
  · decide

theorem C1_isPathSafe_witness :
    isPathSafe ('/' :: ['x']) = false
    ∧ isPathSafe ['d', ':', 'y'] = false
    ∧ isPathSafe ['.', '.'] = false :=
  ⟨C1_isPathSafe_characterization.1 ['x'],
   C1_isPathSafe_characterization.2.1 'd' ['y'] (by decide),
   C1_isPathSafe_characterization.2.2.1 ['.', '.'] ⟨[], [], rfl, rfl, rfl⟩⟩

/-- The compression-method constants of the module (`TAR_CM_*`). -/
inductive TarCM
  | none
  | gzip
  | bzip2
  | xz
  | zstd
  | lz4
deriving DecidableEq, Repr

/-- The C suffix test `len >= k && strcmp(filename + len - k, sfx) == 0`:
the length guard plus a comparison of the last `k` bytes with the suffix. -/
def endsWithC (f sfx : List Char) : Bool :=
  decide (sfx.length ≤ f.length) && decide (f.drop (f.length - sfx.length) = sfx)

/-- Embedding of `detect_compression_from_filename` (tar-module.cpp):
filename-suffix based compression auto-detection. -/
def detect_compression_from_filename (f : List Char) : TarCM :=
  if f.length < 4 then .none
  else if endsWithC f ".tar.gz".data then .gzip
  else if endsWithC f ".tgz".data then .gzip
  else if endsWithC f ".tar.bz2".data then .bzip2
  else if endsWithC f ".tbz2".data then .bzip2
  else if endsWithC f ".tbz".data then .bzip2
  else if endsWithC f ".tar.xz".data then .xz
  else if endsWithC f ".txz".data then .xz
  else if endsWithC f ".tar.zst".data then .zstd
  else if endsWithC f ".tar.zstd".data then .zstd
  else if endsWithC f ".tar.lz4".data then .lz4
  else if endsWithC f ".tar".data then .none
  else .none

theorem endsWithC_iff_suffix (f sfx : List Char) :
    endsWithC f sfx = true ↔ sfx <:+ f := by
  unfold endsWithC
  simp only [Bool.and_eq_true, decide_eq_true_eq]
  constructor
  · intro h
    rw [List.suffix_iff_eq_drop]
    exact h.2.symm
  · intro h
    refine ⟨h.length_le, ?_⟩
    exact (List.suffix_iff_eq_drop.mp h).symm

theorem not_suffix_both {a b : List Char} (h1 : ¬ a <:+ b) (h2 : ¬ b <:+ a)
    {f : List Char} (ha : a <:+ f) : ¬ b <:+ f :=
  fun hb => (List.suffix_or_suffix_of_suffix ha hb).elim h1 h2

theorem endsWithC_ne_true {f sfx : List Char} (h : ¬ sfx <:+ f) :
    ¬ endsWithC f sfx = true :=
  fun hx => h ((endsWithC_iff_suffix f sfx).mp hx)

/-- C9: filename-based compression auto-detection maps each documented
suffix family to its codec, any name shorter than 4 characters to no
compression, and any name matching none of the compression suffixes
(including plain ".tar") to no compression. -/
theorem C9_detect_compression (f : List Char) :
    (".tar.gz".data <:+ f → detect_compression_from_filename f = .gzip)
    ∧ (".tgz".data <:+ f → detect_compression_from_filename f = .gzip)
    ∧ (".tar.bz2".data <:+ f → detect_compression_from_filename f = .bzip2)
    ∧ (".tbz2".data <:+ f → detect_compression_from_filename f = .bzip2)
    ∧ (".tbz".data <:+ f → detect_compression_from_filename f = .bzip2)
    ∧ (".tar.xz".data <:+ f → detect_compression_from_filename f = .xz)
    ∧ (".txz".data <:+ f → detect_compression_from_filename f = .xz)
    ∧ (".tar.zst".data <:+ f → detect_compression_from_filename f = .zstd)
    ∧ (".tar.zstd".data <:+ f → detect_compression_from_filename f = .zstd)
    ∧ (".tar.lz4".data <:+ f → detect_compression_from_filename f = .lz4)
    ∧ (f.length < 4 → detect_compression_from_filename f = .none)
    ∧ (¬ ".tar.gz".data <:+ f → ¬ ".tgz".data <:+ f → ¬ ".tar.bz2".data <:+ f →
       ¬ ".tbz2".data <:+ f → ¬ ".tbz".data <:+ f → ¬ ".tar.xz".data <:+ f →
       ¬ ".txz".data <:+ f → ¬ ".tar.zst".data <:+ f → ¬ ".tar.zstd".data <:+ f →
       ¬ ".tar.lz4".data <:+ f → detect_compression_from_filename f = .none) := by
  refine ⟨?_, ?_, ?_, ?_, ?_, ?_, ?_, ?_, ?_, ?_, ?_, ?_⟩
  · intro h
    have hl : ¬ f.length < 4 := by
      have h1 := h.length_le
      have h2 : ".tar.gz".data.length = 7 := rfl
      omega
    unfold detect_compression_from_filename
    rw [if_neg hl, if_pos ((endsWithC_iff_suffix f _).mpr h)]
  · intro h
    have hl : ¬ f.length < 4 := by
      have h1 := h.length_le
      have h2 : ".tgz".data.length = 4 := rfl
      omega
    unfold detect_compression_from_filename
    rw [if_neg hl,
      if_neg (endsWithC_ne_true (not_suffix_both (by decide) (by decide) h)),
      if_pos ((endsWithC_iff_suffix f _).mpr h)]
  · intro h
    have hl : ¬ f.length < 4 := by
      have h1 := h.length_le
      have h2 : ".tar.bz2".data.length = 8 := rfl
      omega
    unfold detect_compression_from_filename
    rw [if_neg hl,
      if_neg (endsWithC_ne_true (not_suffix_both (by decide) (by decide) h)),
      if_neg (endsWithC_ne_true (not_suffix_both (by decide) (by decide) h)),
      if_pos ((endsWithC_iff_suffix f _).mpr h)]
  · intro h
    have hl : ¬ f.length < 4 := by
      have h1 := h.length_le
      have h2 : ".tbz2".data.length = 5 := rfl
      omega
    unfold detect_compression_from_filename
    rw [if_neg hl,
      if_neg (endsWithC_ne_true (not_suffix_both (by decide) (by decide) h)),
      if_neg (endsWithC_ne_true (not_suffix_both (by decide) (by decide) h)),
      if_neg (endsWithC_ne_true (not_suffix_both (by decide) (by decide) h)),
      if_pos ((endsWithC_iff_suffix f _).mpr h)]
  · intro h
    have hl : ¬ f.length < 4 := by
      have h1 := h.length_le
      have h2 : ".tbz".data.length = 4 := rfl
      omega
    unfold detect_compression_from_filename
    rw [if_neg hl,
      if_neg (endsWithC_ne_true (not_suffix_both (by decide) (by decide) h)),
      if_neg (endsWithC_ne_true (not_suffix_both (by decide) (by decide) h)),
      if_neg (endsWithC_ne_true (not_suffix_both (by decide) (by decide) h)),
      if_neg (endsWithC_ne_true (not_suffix_both (by decide) (by decide) h)),
      if_pos ((endsWithC_iff_suffix f _).mpr h)]
  · intro h
    have hl : ¬ f.length < 4 := by
      have h1 := h.length_le
      have h2 : ".tar.xz".data.length = 7 := rfl
      omega
    unfold detect_compression_from_filename
    rw [if_neg hl,
      if_neg (endsWithC_ne_true (not_suffix_both (by decide) (by decide) h)),
      if_neg (endsWithC_ne_true (not_suffix_both (by decide) (by decide) h)),
      if_neg (endsWithC_ne_true (not_suffix_both (by decide) (by decide) h)),
      if_neg (endsWithC_ne_true (not_suffix_both (by decide) (by decide) h)),
      if_neg (endsWithC_ne_true (not_suffix_both (by decide) (by decide) h)),
      if_pos ((endsWithC_iff_suffix f _).mpr h)]
  · intro h
    have hl : ¬ f.length < 4 := by
      have h1 := h.length_le
      have h2 : ".txz".data.length = 4 := rfl
      omega
    unfold detect_compression_from_filename
    rw [if_neg hl,
      if_neg (endsWithC_ne_true (not_suffix_both (by decide) (by decide) h)),
      if_neg (endsWithC_ne_true (not_suffix_both (by decide) (by decide) h)),
      if_neg (endsWithC_ne_true (not_suffix_both (by decide) (by decide) h)),
      if_neg (endsWithC_ne_true (not_suffix_both (by decide) (by decide) h)),
      if_neg (endsWithC_ne_true (not_suffix_both (by decide) (by decide) h)),
      if_neg (endsWithC_ne_true (not_suffix_both (by decide) (by decide) h)),
      if_pos ((endsWithC_iff_suffix f _).mpr h)]
  · intro h
    have hl : ¬ f.length < 4 := by
      have h1 := h.length_le
      have h2 : ".tar.zst".data.length = 8 := rfl
      omega
    unfold detect_compression_from_filename
    rw [if_neg hl,
      if_neg (endsWithC_ne_true (not_suffix_both (by decide) (by decide) h)),
      if_neg (endsWithC_ne_true (not_suffix_both (by decide) (by decide) h)),
      if_neg (endsWithC_ne_true (not_suffix_both (by decide) (by decide) h)),
      if_neg (endsWithC_ne_true (not_suffix_both (by decide) (by decide) h)),
      if_neg (endsWithC_ne_true (not_suffix_both (by decide) (by decide) h)),
      if_neg (endsWithC_ne_true (not_suffix_both (by decide) (by decide) h)),
      if_neg (endsWithC_ne_true (not_suffix_both (by decide) (by decide) h)),
      if_pos ((endsWithC_iff_suffix f _).mpr h)]
  · intro h
    have hl : ¬ f.length < 4 := by
      have h1 := h.length_le
      have h2 : ".tar.zstd".data.length = 9 := rfl
      omega
    unfold detect_compression_from_filename
    rw [if_neg hl,
      if_neg (endsWithC_ne_true (not_suffix_both (by decide) (by decide) h)),
      if_neg (endsWithC_ne_true (not_suffix_both (by decide) (by decide) h)),
      if_neg (endsWithC_ne_true (not_suffix_both (by decide) (by decide) h)),
      if_neg (endsWithC_ne_true (not_suffix_both (by decide) (by decide) h)),
      if_neg (endsWithC_ne_true (not_suffix_both (by decide) (by decide) h)),
      if_neg (endsWithC_ne_true (not_suffix_both (by decide) (by decide) h)),
      if_neg (endsWithC_ne_true (not_suffix_both (by decide) (by decide) h)),
      if_neg (endsWithC_ne_true (not_suffix_both (by decide) (by decide) h)),
      if_pos ((endsWithC_iff_suffix f _).mpr h)]
  · intro h
    have hl : ¬ f.length < 4 := by
      have h1 := h.length_le
      have h2 : ".tar.lz4".data.length = 8 := rfl
      omega
    unfold detect_compression_from_filename
    rw [if_neg hl,
      if_neg (endsWithC_ne_true (not_suffix_both (by decide) (by decide) h)),
      if_neg (endsWithC_ne_true (not_suffix_both (by decide) (by decide) h)),
      if_neg (endsWithC_ne_true (not_suffix_both (by decide) (by decide) h)),
      if_neg (endsWithC_ne_true (not_suffix_both (by decide) (by decide) h)),
      if_neg (endsWithC_ne_true (not_suffix_both (by decide) (by decide) h)),
      if_neg (endsWithC_ne_true (not_suffix_both (by decide) (by decide) h)),
      if_neg (endsWithC_ne_true (not_suffix_both (by decide) (by decide) h)),
      if_neg (endsWithC_ne_true (not_suffix_both (by decide) (by decide) h)),
      if_neg (endsWithC_ne_true (not_suffix_both (by decide) (by decide) h)),
      if_pos ((endsWithC_iff_suffix f _).mpr h)]
  · intro hl
    unfold detect_compression_from_filename
    rw [if_pos hl]
  · intro h1 h2 h3 h4 h5 h6 h7 h8 h9 h10
    unfold detect_compression_from_filename
    by_cases hl : f.length < 4
    · rw [if_pos hl]
    · rw [if_neg hl,
        if_neg (endsWithC_ne_true h1), if_neg (endsWithC_ne_true h2),
        if_neg (endsWithC_ne_true h3), if_neg (endsWithC_ne_true h4),
        if_neg (endsWithC_ne_true h5), if_neg (endsWithC_ne_true h6),
        if_neg (endsWithC_ne_true h7), if_neg (endsWithC_ne_true h8),
        if_neg (endsWithC_ne_true h9), if_neg (endsWithC_ne_true h10)]
      split
      · rfl
      · rfl

theorem C9_detect_compression_witness :
    detect_compression_from_filename "backup.tar.gz".data = .gzip
    ∧ detect_compression_from_filename "a.tbz".data = .bzip2
    ∧ detect_compression_from_filename "notes.txt".data = .none :=
  ⟨(C9_detect_compression "backup.tar.gz".data).1 (by decide),
   (C9_detect_compression "a.tbz".data).2.2.2.2.1 (by decide),
   (C9_detect_compression "notes.txt".data).2.2.2.2.2.2.2.2.2.2.2
     (by decide) (by decide) (by decide) (by decide) (by decide) (by decide)
     (by decide) (by decide) (by decide) (by decide)⟩

/-- The libarchive filetype constants used by the module (`AE_IF*`);
`other` stands for any value outside the switch cases. -/
inductive Filetype
  | reg
  | dir
  | lnk
  | chr
  | blk
  | fifo
  | sock
  | other
deriving DecidableEq, Repr

/-- One archive member as presented by the read coder's current entry
cursor: the fields of `struct archive_entry` that the module reads.
Nullable C strings are `Option (List Char)`; a timestamp is `Option Int`
(the `_is_set` flag plus the epoch value); `data` is the payload the coder
delivers through `archive_read_data` for this entry. -/
structure RawEntry where
  pathname : List Char
  size : Int
  mtime : Option Int
  atime : Option Int
  ctime : Option Int
  mode : Int
  uid : Int
  gid : Int
  uname : Option (List Char)
  gname : Option (List Char)
  filetype : Filetype
  hardlink : Option (List Char)
  symlink : Option (List Char)
  devmajor : Int
  devminor : Int
  data : List UInt8
deriving DecidableEq, Repr

/-- The `TarEntryInfo` hash produced by `QoreTarFile::createEntryInfo`:
one field per hash key, with `Option` for the keys that are set
conditionally. -/
structure TarEntryInfo where
  name : List Char
  size : Int
  modified : Option Int
  accessed : Option Int
  created : Option Int
  mode : Int
  uid : Int
  gid : Int
  uname : Option (List Char)
  gname : Option (List Char)
  type : String
  link_target : Option (List Char)
  is_directory : Bool
  is_symlink : Bool
  is_hardlink : Bool
  devmajor : Option Int
  devminor : Option Int
deriving DecidableEq, Repr

/-- The `switch (filetype)` mapping of `createEntryInfo`. -/
def filetypeName : Filetype → String
  | .reg => "file"
  | .dir => "directory"
  | .lnk => "symlink"
  | .chr => "chardev"
  | .blk => "blockdev"
  | .fifo => "fifo"
  | .sock => "socket"
  | .other => "unknown"

namespace QoreTarFile

/-- Embedding of `QoreTarFile::createEntryInfo`: builds the metadata hash
for one entry. The type key checks the hardlink target first
(`hardlink_target && *hardlink_target`); the link_target key takes the
symlink if the pointer is non-null, else the hardlink; `is_hardlink` is a
bare null-pointer test. -/
def createEntryInfo (e : RawEntry) : TarEntryInfo :=
  { name := e.pathname
    size := e.size
    modified := e.mtime
    accessed := e.atime
    created := e.ctime
    mode := e.mode
    uid := e.uid
    gid := e.gid
    uname := e.uname
    gname := e.gname
    type :=
      match e.hardlink with
      | some t => if t.isEmpty then filetypeName e.filetype else "hardlink"
      | none => filetypeName e.filetype
    link_target :=
      match e.symlink with
      | some l => some l
      | none => e.hardlink
    is_directory := decide (e.filetype = .dir)
    is_symlink := decide (e.filetype = .lnk)
    is_hardlink := e.hardlink.isSome
    devmajor := if e.filetype = .chr ∨ e.filetype = .blk then some e.devmajor else none
    devminor := if e.filetype = .chr ∨ e.filetype = .blk then some e.devminor else none }

end QoreTarFile

/-- C4: in the metadata record, the type field gives hardlink precedence —
present non-empty hardlink target forces "hardlink" regardless of the
filetype flag; otherwise the type is the pure image of the filetype flag
under the documented eight-way mapping. -/
theorem C4_type_hardlink_precedence :
    (∀ (e : RawEntry) (t : List Char), e.hardlink = some t → t ≠ [] →
      (QoreTarFile.createEntryInfo e).type = "hardlink")
    ∧ (∀ e : RawEntry, e.hardlink = none ∨ e.hardlink = some [] →
      (QoreTarFile.createEntryInfo e).type = filetypeName e.filetype)
    ∧ (filetypeName .reg = "file" ∧ filetypeName .dir = "directory"
       ∧ filetypeName .lnk = "symlink" ∧ filetypeName .chr = "chardev"
       ∧ filetypeName .blk = "blockdev" ∧ filetypeName .fifo = "fifo"
       ∧ filetypeName .sock = "socket" ∧ filetypeName .other = "unknown") := by
  refine ⟨?_, ?_, by decide⟩
  · intro e t ht hne
    simp [QoreTarFile.createEntryInfo, ht, List.isEmpty_iff, hne]
  · intro e h
    rcases h with h | h
    · simp [QoreTarFile.createEntryInfo, h]
    · simp [QoreTarFile.createEntryInfo, h]

/-- A concrete entry whose hardlink target is present but empty, with the
regular-file filetype flag. -/
def emptyHardlinkEntry : RawEntry :=
  { pathname := "a".data
    size := 0
    mtime := none
    atime := none
    ctime := none
    mode := 0
    uid := 0
    gid := 0
    uname := none
    gname := none
    filetype := .reg
    hardlink := some []
    symlink := none
    devmajor := 0
    devminor := 0
    data := [] }

/-- A concrete regular-file entry with a non-empty hardlink target. -/
def filetypeHardlinkEntry : RawEntry :=
  { emptyHardlinkEntry with pathname := "b".data, hardlink := some "a".data }

theorem C4_type_hardlink_precedence_witness :
    (QoreTarFile.createEntryInfo filetypeHardlinkEntry).type = "hardlink"
    ∧ (QoreTarFile.createEntryInfo emptyHardlinkEntry).type = "file" :=
  ⟨C4_type_hardlink_precedence.1 filetypeHardlinkEntry "a".data rfl (by decide),
   C4_type_hardlink_precedence.2.1 emptyHardlinkEntry (Or.inr rfl)⟩

/-- C10: the `is_hardlink` convenience flag is a presence test on the
hardlink target (true even for a present-but-empty target), so it can
disagree with the type field, which demands a non-empty target: witnessed
by a concrete entry with `hardlink = some ""`. -/
theorem C10_is_hardlink_flag :
    (∀ e : RawEntry, (QoreTarFile.createEntryInfo e).is_hardlink = e.hardlink.isSome)
    ∧ (QoreTarFile.createEntryInfo emptyHardlinkEntry).is_hardlink = true
    ∧ (QoreTarFile.createEntryInfo emptyHardlinkEntry).type ≠ "hardlink" := by
  refine ⟨fun e => rfl, by decide, by decide⟩

/-- One archive header as handed to the write coder
(`archive_write_header`): the fields the module sets on a fresh
`archive_entry`. Fields the module leaves untouched stay at their
defaults (`none` / 0). -/
structure EntryHeader where
  pathname : List Char
  size : Int
  filetype : Option Filetype
  perm : Int
  mtime : Int
  uid : Int
  gid : Int
  uname : Option (List Char)
  gname : Option (List Char)
  hardlink : Option (List Char)
  symlink : Option (List Char)
deriving DecidableEq, Repr

/-- What the module pushes into a write coder: a header
(`archive_write_header`) or a payload chunk (`archive_write_data`). The
coder itself (serialization, compression) is the external collaborator, so
it is modelled as the ordered log of these calls. -/
inductive WriteAction
  | header (h : EntryHeader)
  | dataChunk (bytes : List UInt8)
deriving DecidableEq, Repr

/-- State of `TarInputStream`: the bytes the coder will still deliver for
this entry, the declared entry size, the cumulative bytes delivered, the
closed flag, and the one-byte lookahead slot (`peek_byte`/`has_peek`). -/
structure TarInputStream where
  coderData : List UInt8
  entry_size : Int
  bytes_read : Int
  closed : Bool
  peekSlot : Option UInt8
deriving DecidableEq, Repr

namespace TarInputStream

/-- Embedding of `TarInputStream::read`: fails when closed, returns zero
bytes at or past the declared size, otherwise delivers the lookahead byte
first (when present and `limit > 0`) and then up to the remaining limit
from the coder, adding the total to `bytes_read`. -/
def read (st : TarInputStream) (limit : Int) :
    Except QErr (List UInt8 × TarInputStream) :=
  if st.closed then .error ⟨"STREAM-CLOSED-ERROR", "stream is closed"⟩
  else if st.entry_size ≤ st.bytes_read then .ok ([], st)
  else
    match st.peekSlot with
    | some b =>
      if 0 < limit then
        let k := if 0 < limit - 1 then min (limit - 1).toNat st.coderData.length else 0
        let out := b :: st.coderData.take k
        .ok (out,
          { st with
            peekSlot := none
            coderData := st.coderData.drop k
            bytes_read := st.bytes_read + (out.length : Int) })
      else
        .ok ([], st)
    | none =>
      let k := if 0 < limit then min limit.toNat st.coderData.length else 0
      let out := st.coderData.take k
      .ok (out,
        { st with
          coderData := st.coderData.drop k
          bytes_read := st.bytes_read + (out.length : Int) })

/-- Embedding of `TarInputStream::peek`: fails when closed, returns the
lookahead byte if already populated, `none` at or past the declared size or
when the coder has no byte, otherwise pulls one byte from the coder into
the lookahead slot without touching `bytes_read`. -/
def peek (st : TarInputStream) : Except QErr (Option UInt8 × TarInputStream) :=
  if st.closed then .error ⟨"STREAM-CLOSED-ERROR", "stream is closed"⟩
  else
    match st.peekSlot with
    | some b => .ok (some b, st)
    | none =>
      if st.entry_size ≤ st.bytes_read then .ok (none, st)
      else
        match st.coderData with
        | [] => .ok (none, st)
        | b :: rest => .ok (some b, { st with coderData := rest, peekSlot := some b })

end TarInputStream

/-- C6: on an open, non-exhausted entry stream, `peek` never advances the
delivered-byte count; after a successful `peek` of byte `b`, a second
`peek` returns `b` again with the state untouched (no new coder pull), and
a `read` with positive limit delivers `b` as the first byte; once the
cumulative delivered count reaches the declared size, `read` returns zero
bytes instead of an error. -/
theorem C6_lookahead :
    (∀ st : TarInputStream, st.closed = false → st.bytes_read < st.entry_size →
      (∀ r st2, TarInputStream.peek st = .ok (r, st2) → st2.bytes_read = st.bytes_read)
      ∧ (∀ b st2, TarInputStream.peek st = .ok (some b, st2) →
          TarInputStream.peek st2 = .ok (some b, st2)
          ∧ (∀ limit : Int, 1 ≤ limit →
              ∃ rest st3, TarInputStream.read st2 limit = .ok (b :: rest, st3))))
    ∧ (∀ (st : TarInputStream) (limit : Int), st.closed = false →
        st.entry_size ≤ st.bytes_read →
        TarInputStream.read st limit = .ok ([], st)) := by
  constructor
  · intro st hcl hlt
    have hnot : ¬ st.entry_size ≤ st.bytes_read := not_le.mpr hlt
    constructor
    · intro r st2 h
      unfold TarInputStream.peek at h
      rw [if_neg (by simp [hcl])] at h
      cases hslot : st.peekSlot with
      | some b =>
        rw [hslot] at h
        cases h
        rfl
      | none =>
        rw [hslot, if_neg hnot] at h
        cases hcd : st.coderData with
        | nil =>
          rw [hcd] at h
          cases h
          rfl
        | cons b rest =>
          rw [hcd] at h
          cases h
          rfl
    · intro b st2 h
      unfold TarInputStream.peek at h
      rw [if_neg (by simp [hcl])] at h
      have key : st2.peekSlot = some b ∧ st2.closed = false ∧
          st2.bytes_read = st.bytes_read ∧ st2.entry_size = st.entry_size := by
        cases hslot : st.peekSlot with
        | some b0 =>
          rw [hslot] at h
          cases h
          exact ⟨hslot, hcl, rfl, rfl⟩
        | none =>
          rw [hslot, if_neg hnot] at h
          cases hcd : st.coderData with
          | nil =>
            rw [hcd] at h
            cases h
          | cons b0 rest =>
            rw [hcd] at h
            cases h
            exact ⟨rfl, hcl, rfl, rfl⟩
      obtain ⟨hs2, hc2, hb2, he2⟩ := key
      constructor
      · unfold TarInputStream.peek
        rw [if_neg (by simp [hc2]), hs2]
      · intro limit hlim
        have hread : TarInputStream.read st2 limit =
            if 0 < limit then
              let k := if 0 < limit - 1 then min (limit - 1).toNat st2.coderData.length else 0
              let out := b :: st2.coderData.take k
              Except.ok (out,
                { st2 with
                  peekSlot := none
                  coderData := st2.coderData.drop k
                  bytes_read := st2.bytes_read + (out.length : Int) })
            else Except.ok ([], st2) := by
          unfold TarInputStream.read
          rw [if_neg (by simp [hc2]), if_neg (by rw [hb2, he2]; exact hnot), hs2]
        rw [hread, if_pos (show (0:Int) < limit by omega)]
        exact ⟨_, _, rfl⟩
  · intro st limit hcl hle
    unfold TarInputStream.read
    rw [if_neg (by simp [hcl]), if_pos hle]

/-- A fresh input stream over a 2-byte entry. -/
def tisSample : TarInputStream :=
  { coderData := [65, 66], entry_size := 2, bytes_read := 0, closed := false,
    peekSlot := none }

/-- `tisSample` after one successful `peek`. -/
def tisSamplePeeked : TarInputStream :=
  { coderData := [66], entry_size := 2, bytes_read := 0, closed := false,
    peekSlot := some 65 }

/-- An input stream whose delivered count has reached the declared size. -/
def tisDrained : TarInputStream :=
  { coderData := [], entry_size := 2, bytes_read := 2, closed := false,
    peekSlot := none }

theorem C6_lookahead_witness :
    TarInputStream.peek tisSamplePeeked = .ok (some 65, tisSamplePeeked)
    ∧ (∃ rest st3, TarInputStream.read tisSamplePeeked 2 = .ok (65 :: rest, st3))
    ∧ TarInputStream.read tisDrained 4 = .ok ([], tisDrained) := by
  have h := (C6_lookahead.1 tisSample rfl (by decide)).2 65 tisSamplePeeked (by rfl)
  exact ⟨h.1, h.2 2 (by decide), C6_lookahead.2 tisDrained 4 rfl (by decide)⟩

/-- State of `TarOutputStream`: the underlying write coder (as its action
log), the entry name and permission fixed at construction, the internal
accumulation buffer, and the closed flag. `header_written` is declared in
the C++ class but never consulted. -/
structure TarOutputStream where
  log : List WriteAction
  entry_name : List Char
  perm : Int
  buffer : List UInt8
  closed : Bool
  header_written : Bool
deriving DecidableEq, Repr

namespace TarOutputStream

/-- The constructor `TarOutputStream(archive, entry_name, mode, xsink)`:
empty buffer, not closed, no header written. -/
def init (log : List WriteAction) (name : List Char) (perm : Int) : TarOutputStream :=
  { log := log
    entry_name := name
    perm := perm
    buffer := []
    closed := false
    header_written := false }

/-- Embedding of `TarOutputStream::write`: fails when closed, ignores an
empty write (`count <= 0`), otherwise appends the bytes to the internal
buffer — nothing reaches the write coder. -/
def write (st : TarOutputStream) (data : List UInt8) : Except QErr TarOutputStream :=
  if st.closed then .error ⟨"STREAM-CLOSED-ERROR", "stream is closed"⟩
  else if data.length = 0 then .ok st
  else .ok { st with buffer := st.buffer ++ data }

/-- Embedding of `TarOutputStream::close`: a no-op when already closed;
otherwise marks the stream closed, emits exactly one regular-file header
whose size is the accumulated byte count (permission from construction,
mtime from the clock), then the buffered payload if non-empty, and releases
the buffer. -/
def close (now : Int) (st : TarOutputStream) : TarOutputStream :=
  if st.closed then st
  else
    let hdr : EntryHeader :=
      { pathname := st.entry_name
        size := (st.buffer.length : Int)
        filetype := some .reg
        perm := st.perm
        mtime := now
        uid := 0
        gid := 0
        uname := none
        gname := none
        hardlink := none
        symlink := none }
    { st with
      closed := true
      log := st.log ++ WriteAction.header hdr ::
        (if st.buffer.isEmpty then [] else [WriteAction.dataChunk st.buffer])
      buffer := [] }

/-- A sequence of `write` calls, stopping at the first error. -/
def writeAll (st : TarOutputStream) (chunks : List (List UInt8)) :
    Except QErr TarOutputStream :=
  match chunks with
  | [] => .ok st
  | c :: rest =>
    match write st c with
    | .ok st2 => writeAll st2 rest
    | .error e => .error e

end TarOutputStream

theorem writeAll_open (chunks : List (List UInt8)) :
    ∀ st : TarOutputStream, st.closed = false →
      TarOutputStream.writeAll st chunks = .ok { st with buffer := st.buffer ++ chunks.flatten } := by
  induction chunks with
  | nil =>
    intro st hcl
    simp [TarOutputStream.writeAll]
  | cons c rest ih =>
    intro st hcl
    unfold TarOutputStream.writeAll TarOutputStream.write
    rw [if_neg (by simp [hcl])]
    by_cases hc : c.length = 0
    · rw [if_pos hc]
      have hcnil : c = [] := List.length_eq_zero.mp hc
      show TarOutputStream.writeAll st rest = _
      rw [ih st hcl, hcnil]
      simp
    · rw [if_neg hc]
      show TarOutputStream.writeAll { st with buffer := st.buffer ++ c } rest = _
      rw [ih { st with buffer := st.buffer ++ c } hcl]
      simp

/-- C5: on a fresh entry output stream, any sequence of `write` calls with
no `close` emits nothing to the underlying write coder and only accumulates
the bytes; the first `close` emits exactly one regular-file header whose
declared size is the total number of bytes written, followed by that
payload; a second `close` (at any later clock value) changes nothing. -/
theorem C5_deferred_header (log : List WriteAction) (name : List Char) (perm : Int)
    (chunks : List (List UInt8)) (now now2 : Int) :
    TarOutputStream.writeAll (TarOutputStream.init log name perm) chunks
      = .ok { TarOutputStream.init log name perm with buffer := chunks.flatten }
    ∧ ({ TarOutputStream.init log name perm with buffer := chunks.flatten } : TarOutputStream).log = log
    ∧ (TarOutputStream.close now
        { TarOutputStream.init log name perm with buffer := chunks.flatten }).log
      = log ++ WriteAction.header
          { pathname := name
            size := (chunks.flatten.length : Int)
            filetype := some .reg
            perm := perm
            mtime := now
            uid := 0
            gid := 0
            uname := none
            gname := none
            hardlink := none
            symlink := none } ::
          (if chunks.flatten.isEmpty then [] else [WriteAction.dataChunk chunks.flatten])
    ∧ TarOutputStream.close now2 (TarOutputStream.close now
        { TarOutputStream.init log name perm with buffer := chunks.flatten })
      = TarOutputStream.close now
        { TarOutputStream.init log name perm with buffer := chunks.flatten } := by
  refine ⟨?_, rfl, ?_, ?_⟩
  · have h := writeAll_open chunks (TarOutputStream.init log name perm) rfl
    simpa [TarOutputStream.init] using h
  · rfl
  · rfl

/-- The archive access modes (`TarMode`). -/
inductive TarMode
  | read
  | write
  | append
deriving DecidableEq, Repr

/-- The `TAR_BUFFER_SIZE` transfer-buffer constant. -/
def TAR_BUFFER_SIZE : Nat := 65536

/-- `entryNameEquals` on the non-Apple branch: plain byte comparison
(`strcmp(archive_name, lookup_name) == 0`). -/
def entryNameEquals (archive_name lookup_name : List Char) : Bool :=
  archive_name == lookup_name

/-- The linear scan shared by the lookup operations: the first entry whose
pathname compares equal to the lookup name. -/
def findEntry (es : List RawEntry) (name : List Char) : Option RawEntry :=
  match es with
  | [] => none
  | e :: rest => if entryNameEquals e.pathname name then some e else findEntry rest name

/-- The `while ((bytes_read = archive_read_data(...)) > 0)` accumulation
loop: pulls the entry payload in `TAR_BUFFER_SIZE` chunks, appending each
to the accumulator, until the coder returns 0. -/
def drainData (remaining acc : List UInt8) : List UInt8 :=
  if h : remaining = [] then acc
  else drainData (remaining.drop TAR_BUFFER_SIZE) (acc ++ remaining.take TAR_BUFFER_SIZE)
termination_by remaining.length
decreasing_by
  rw [List.length_drop]
  have hp : 0 < remaining.length := List.length_pos.mpr h
  have hTB : TAR_BUFFER_SIZE = 65536 := rfl
  omega

theorem drainData_eq_aux (n : Nat) :
    ∀ remaining acc : List UInt8, remaining.length ≤ n →
      drainData remaining acc = acc ++ remaining := by
  induction n with
  | zero =>
    intro remaining acc h
    have hnil : remaining = [] := List.length_eq_zero.mp (Nat.le_zero.mp h)
    subst hnil
    unfold drainData
    simp
  | succ n ih =>
    intro remaining acc h
    unfold drainData
    by_cases hr : remaining = []
    · rw [dif_pos hr, hr]
      simp
    · rw [dif_neg hr]
      have hlen : (remaining.drop TAR_BUFFER_SIZE).length ≤ n := by
        rw [List.length_drop]
        have hp : 0 < remaining.length := List.length_pos.mpr hr
        have hTB : TAR_BUFFER_SIZE = 65536 := rfl
        omega
      rw [ih _ _ hlen, List.append_assoc, List.take_append_drop]

/-- The chunked accumulation loop delivers exactly the remaining payload. -/
theorem drainData_eq (remaining acc : List UInt8) :
    drainData remaining acc = acc ++ remaining :=
  drainData_eq_aux remaining.length remaining acc le_rfl

/-- The recognised keys of a `TarAddOptions` hash; `none` is an absent key. -/
structure TarAddOptions where
  mode : Option Int
  uid : Option Int
  gid : Option Int
  uname : Option (List Char)
  gname : Option (List Char)
  modified : Option Int
  preserve_permissions : Option Bool
  dereference_symlinks : Option Bool
deriving DecidableEq, Repr

/-- The recognised keys of a `TarExtractOptions` hash; `none` is an absent
key. -/
structure TarExtractOptions where
  destination : Option (List Char)
  preserve_permissions : Option Bool
  preserve_ownership : Option Bool
  preserve_times : Option Bool
  overwrite : Option Bool
  create_directories : Option Bool
  strip_count : Option Int
deriving DecidableEq, Repr

/-- The result of `stat` plus the file contents, handed to `addFile` in
place of the real filesystem (an OS collaborator). -/
structure FileStat where
  st_size : Int
  st_mode : Int
  st_mtime : Int
  st_uid : Int
  st_gid : Int
  is_reg : Bool
deriving DecidableEq, Repr

/-- State of a `QoreTarFile` archive session. The read coder is modelled
by the entry list it parses from the backing (`none` = null handle); the
write coder by its action log (`none` = null handle). `write_close_count`
counts the `archive_write_close` calls actually issued, so that footer
emission can be reasoned about. -/
structure QoreTarFile where
  filepath : List Char
  mode : TarMode
  compression_method : TarCM
  compression_level : Int
  format : Int
  in_memory : Bool
  closed : Bool
  readEntries : Option (List RawEntry)
  writeLog : Option (List WriteAction)
  memory_buffer : List UInt8
  memory_pos : Nat
  write_close_count : Nat
deriving DecidableEq, Repr

namespace QoreTarFile

/-- The error raised by `checkOpen` on a closed session. -/
def closedErr : QErr := ⟨"TAR-ERROR", "archive is closed"⟩

/-- The error raised by `checkOpen` when no write coder is open. -/
def notWriteErr : QErr := ⟨"TAR-ERROR", "archive is not open for writing"⟩

/-- The error raised by `checkOpen` when no read coder is open. -/
def notReadErr : QErr := ⟨"TAR-ERROR", "archive is not open for reading"⟩

/-- The entry-not-found error of the lookup operations. -/
def notFoundErr (name : List Char) : QErr :=
  ⟨"TAR-ERROR", "entry '" ++ String.mk name ++ "' not found"⟩

/-- Embedding of `QoreTarFile::checkOpen`. -/
def checkOpen (s : QoreTarFile) (forWrite : Bool) : Option QErr :=
  if s.closed then some closedErr
  else if forWrite then
    if s.writeLog.isNone then some notWriteErr else none
  else
    if s.readEntries.isNone && !s.in_memory then some notReadErr else none

/-- Embedding of `QoreTarFile::reopenRead`: frees and reopens the read
coder over the same backing (same entry list) and rewinds the memory
cursor. -/
def reopenRead (s : QoreTarFile) : QoreTarFile :=
  { s with memory_pos := 0 }

/-- Embedding of `QoreTarFile::close`: returns immediately when already
closed; otherwise releases the read coder, closes and releases the write
coder (one `archive_write_close` — the footer flush — counted), and marks
the session closed. -/
def close (s : QoreTarFile) : QoreTarFile :=
  if s.closed then s
  else
    { s with
      readEntries := none
      writeLog := none
      write_close_count := s.write_close_count + (if s.writeLog.isSome then 1 else 0)
      closed := true }

/-- The finalization step inside `toData`: when the session is in write
mode with the write coder still open, close and release the coder. -/
def finalizeWriteCoder (s : QoreTarFile) : QoreTarFile :=
  if s.mode = TarMode.write && s.writeLog.isSome then
    { s with
      writeLog := none
      write_close_count := s.write_close_count + 1 }
  else s

/-- Embedding of `QoreTarFile::toData`: only the `in_memory` flag is
checked; a write coder still open is finalized first; then a snapshot copy
of the in-memory buffer is returned. -/
def toData (s : QoreTarFile) : Except QErr (List UInt8) × QoreTarFile :=
  if !s.in_memory then
    (.error ⟨"TAR-ERROR", "cannot get binary data from file-based archive"⟩, s)
  else
    let s1 := finalizeWriteCoder s
    (.ok s1.memory_buffer, s1)

/-- Embedding of `QoreTarFile::entries`: gate, rewind, walk all headers. -/
def entries (s : QoreTarFile) : Except QErr (List TarEntryInfo) × QoreTarFile :=
  match checkOpen s false with
  | some e => (.error e, s)
  | none =>
    let s1 := reopenRead s
    (.ok ((s1.readEntries.getD []).map createEntryInfo), s1)

/-- Embedding of `QoreTarFile::count`. -/
def count (s : QoreTarFile) : Except QErr Int × QoreTarFile :=
  match checkOpen s false with
  | some e => (.error e, s)
  | none =>
    let s1 := reopenRead s
    (.ok ((s1.readEntries.getD []).length : Int), s1)

/-- Embedding of `QoreTarFile::hasEntry`. -/
def hasEntry (name : List Char) (s : QoreTarFile) : Except QErr Bool × QoreTarFile :=
  match checkOpen s false with
  | some e => (.error e, s)
  | none =>
    let s1 := reopenRead s
    (.ok (findEntry (s1.readEntries.getD []) name).isSome, s1)

/-- Embedding of `QoreTarFile::getEntry`: `none` result = entry absent. -/
def getEntry (name : List Char) (s : QoreTarFile) :
    Except QErr (Option TarEntryInfo) × QoreTarFile :=
  match checkOpen s false with
  | some e => (.error e, s)
  | none =>
    let s1 := reopenRead s
    (.ok ((findEntry (s1.readEntries.getD []) name).map createEntryInfo), s1)

/-- Embedding of `QoreTarFile::read`: gate, rewind, linear scan; a match
with non-positive declared size yields the empty buffer, a positive one is
drained in chunks; no match raises the not-found error. -/
def read (name : List Char) (s : QoreTarFile) :
    Except QErr (List UInt8) × QoreTarFile :=
  match checkOpen s false with
  | some e => (.error e, s)
  | none =>
    let s1 := reopenRead s
    match findEntry (s1.readEntries.getD []) name with
    | some e =>
      if e.size ≤ 0 then (.ok [], s1)
      else (.ok (drainData e.data []), s1)
    | none => (.error (notFoundErr name), s1)

/-- Embedding of `QoreTarFile::readText`: delegates to `read`; the decode
into a string under the requested encoding is the host runtime's job, so
the model returns the raw bytes. -/
def readText (name : List Char) (s : QoreTarFile) :
    Except QErr (List UInt8) × QoreTarFile :=
  read name s

/-- Embedding of `QoreTarFile::add`: gate (write side), option defaults
(`mode` 0644, `modified` absent means the current clock, uid/gid only set
when positive, names only when non-empty), one regular-file header then
the payload when non-empty. -/
def add (name : List Char) (data : List UInt8) (opts : Option TarAddOptions)
    (now : Int) (s : QoreTarFile) : Except QErr Unit × QoreTarFile :=
  match checkOpen s true with
  | some e => (.error e, s)
  | none =>
    let mode_val := (opts.bind (fun o => o.mode)).getD 0o644
    let uid := (opts.bind (fun o => o.uid)).getD 0
    let gid := (opts.bind (fun o => o.gid)).getD 0
    let uname := (opts.bind (fun o => o.uname)).getD []
    let gname := (opts.bind (fun o => o.gname)).getD []
    let modified := (opts.bind (fun o => o.modified)).getD 0
    let hdr : EntryHeader :=
      { pathname := name
        size := (data.length : Int)
        filetype := some Filetype.reg
        perm := mode_val
        mtime := if 0 < modified then modified else now
        uid := if 0 < uid then uid else 0
        gid := if 0 < gid then gid else 0
        uname := if uname = [] then none else some uname
        gname := if gname = [] then none else some gname
        hardlink := none
        symlink := none }
    (.ok (), { s with writeLog := some ((s.writeLog.getD []) ++
        WriteAction.header hdr :: (if data = [] then [] else [WriteAction.dataChunk data])) })

/-- Embedding of `QoreTarFile::addText`: converts the text to bytes (the
encoding conversion is the host runtime's job — the bytes are a parameter)
and delegates to `add`. -/
def addText (name : List Char) (textBytes : List UInt8) (opts : Option TarAddOptions)
    (now : Int) (s : QoreTarFile) : Except QErr Unit × QoreTarFile :=
  add name textBytes opts now s

/-- Embedding of `QoreTarFile::addFile`: gate, `stat` on the real file (the
OS answer and the file contents are parameters; `none` = stat failure),
copy of the stat metadata into the header, then the contents when the file
is regular and non-empty. -/
def addFile (name : List Char) (statResult : Option (FileStat × List UInt8))
    (s : QoreTarFile) : Except QErr Unit × QoreTarFile :=
  match checkOpen s true with
  | some e => (.error e, s)
  | none =>
    match statResult with
    | none => (.error ⟨"TAR-ERROR", "failed to stat file"⟩, s)
    | some (st, contents) =>
      let hdr : EntryHeader :=
        { pathname := name
          size := st.st_size
          filetype := if st.is_reg then some Filetype.reg else none
          perm := st.st_mode
          mtime := st.st_mtime
          uid := st.st_uid
          gid := st.st_gid
          uname := none
          gname := none
          hardlink := none
          symlink := none }
      (.ok (), { s with writeLog := some ((s.writeLog.getD []) ++
          WriteAction.header hdr ::
          (if st.is_reg && decide (0 < st.st_size) then [WriteAction.dataChunk contents] else [])) })

/-- Embedding of `QoreTarFile::addDirectory`: the name is normalized to end
with a slash, the header is directory-typed with permission 0755 and the
current clock, no payload. -/
def addDirectory (name : List Char) (opts : Option TarAddOptions) (now : Int)
    (s : QoreTarFile) : Except QErr Unit × QoreTarFile :=
  match checkOpen s true with
  | some e => (.error e, s)
  | none =>
    let dirname := if name ≠ [] ∧ name.getLast? ≠ some '/' then name ++ ['/'] else name
    let hdr : EntryHeader :=
      { pathname := dirname
        size := 0
        filetype := some Filetype.dir
        perm := 0o755
        mtime := now
        uid := 0
        gid := 0
        uname := none
        gname := none
        hardlink := none
        symlink := none }
    (.ok (), { s with writeLog := some ((s.writeLog.getD []) ++ [WriteAction.header hdr]) })

/-- Embedding of `QoreTarFile::addSymlink`: symlink-typed header with the
target and permission 0777, no payload. -/
def addSymlink (name target : List Char) (opts : Option TarAddOptions) (now : Int)
    (s : QoreTarFile) : Except QErr Unit × QoreTarFile :=
  match checkOpen s true with
  | some e => (.error e, s)
  | none =>
    let hdr : EntryHeader :=
      { pathname := name
        size := 0
        filetype := some Filetype.lnk
        perm := 0o777
        mtime := now
        uid := 0
        gid := 0
        uname := none
        gname := none
        hardlink := none
        symlink := some target }
    (.ok (), { s with writeLog := some ((s.writeLog.getD []) ++ [WriteAction.header hdr]) })

/-- Embedding of `QoreTarFile::addHardlink`: header carrying only the
hardlink target and the current clock (filetype and permission stay at the
fresh-entry defaults), no payload. -/
def addHardlink (name target : List Char) (opts : Option TarAddOptions) (now : Int)
    (s : QoreTarFile) : Except QErr Unit × QoreTarFile :=
  match checkOpen s true with
  | some e => (.error e, s)
  | none =>
    let hdr : EntryHeader :=
      { pathname := name
        size := 0
        filetype := none
        perm := 0
        mtime := now
        uid := 0
        gid := 0
        uname := none
        gname := none
        hardlink := some target
        symlink := none }
    (.ok (), { s with writeLog := some ((s.writeLog.getD []) ++ [WriteAction.header hdr]) })

end QoreTarFile

/-- What `extractAll` pushes into the disk-materializing sink: a header
(with the destination-rooted pathname and, for hardlinks, the rewritten
target) via `archive_write_header`, the entry's data blocks, and the
`archive_write_finish_entry` call. -/
inductive DiskAction
  | header (pathname : List Char) (hardlink : Option (List Char)) (entry : RawEntry)
  | dataBlocks (bytes : List UInt8)
  | finishEntry
deriving DecidableEq, Repr

/-- `destination + "/" + path`. -/
def destJoin (destination p : List Char) : List Char :=
  destination ++ '/' :: p

/-- The hardlink gate of the extraction loop: a present, non-empty hardlink
target that fails `isPathSafe`. -/
def hardlinkViolation (e : RawEntry) : Bool :=
  match e.hardlink with
  | some t => !t.isEmpty && !(isPathSafe t)
  | none => false

/-- The symlink gate of the extraction loop: a present, non-empty symlink
target that fails `isPathSafe`. -/
def symlinkViolation (e : RawEntry) : Bool :=
  match e.symlink with
  | some t => !t.isEmpty && !(isPathSafe t)
  | none => false

/-- The per-entry security checks of `extractAll`, in source order: entry
path, then hardlink target, then symlink target. `none` = all checks
passed. -/
def entryCheck (e : RawEntry) : Option QErr :=
  if !(isPathSafe e.pathname) then
    some ⟨"TAR-SECURITY-ERROR",
      "refusing to extract entry with unsafe path: '" ++ String.mk e.pathname
        ++ "' (potential path traversal attack)"⟩
  else if hardlinkViolation e then
    some ⟨"TAR-SECURITY-ERROR",
      "refusing to extract hardlink with unsafe target: '"
        ++ String.mk (e.hardlink.getD []) ++ "'"⟩
  else if symlinkViolation e then
    some ⟨"TAR-SECURITY-ERROR",
      "refusing to extract symlink with unsafe target: '"
        ++ String.mk (e.symlink.getD []) ++ "'"⟩
  else none

/-- Spec-side per-entry safety: the entry path is safe and any present,
non-empty hardlink or symlink target is safe. -/
def entrySafe (e : RawEntry) : Bool :=
  isPathSafe e.pathname && !(hardlinkViolation e) && !(symlinkViolation e)

/-- The disk actions `extractAll` performs for one entry that passed the
checks: header with destination-rooted pathname (hardlink target rewritten
the same way when non-empty), data blocks when the declared size is
positive, then finish-entry. -/
def extractEntryActions (destination : List Char) (e : RawEntry) : List DiskAction :=
  DiskAction.header (destJoin destination e.pathname)
    (match e.hardlink with
     | some t => if t.isEmpty then some t else some (destJoin destination t)
     | none => none) e
  :: ((if 0 < e.size then [DiskAction.dataBlocks e.data] else []) ++ [DiskAction.finishEntry])

/-- The `while (archive_read_next_header(...))` loop of `extractAll`: for
each entry run the security checks; on the first violation stop in place
with the security error (the actions already performed stay); otherwise
perform the entry's disk actions and continue. -/
def extractLoop (destination : List Char) :
    List RawEntry → List DiskAction → List DiskAction × Option QErr
  | [], acc => (acc, none)
  | e :: rest, acc =>
    match entryCheck e with
    | some err => (acc, some err)
    | none => extractLoop destination rest (acc ++ extractEntryActions destination e)

/-- Destination resolution of `extractAll`: the argument (default ".")
overridden by the options hash's destination key. -/
def resolveDestination (destPath : Option (List Char)) (opts : Option TarExtractOptions) :
    List Char :=
  match opts with
  | some o => o.destination.getD (destPath.getD ".".data)
  | none => destPath.getD ".".data

namespace QoreTarFile

/-- Embedding of `QoreTarFile::extractAll`: gate, option parsing, rewind,
then the extraction loop against a fresh disk writer. The returned pair
carries the disk actions performed and the error (if any) that stopped the
loop. -/
def extractAll (destPath : Option (List Char)) (opts : Option TarExtractOptions)
    (s : QoreTarFile) : (List DiskAction × Option QErr) × QoreTarFile :=
  match checkOpen s false with
  | some e => (([], some e), s)
  | none =>
    let s1 := reopenRead s
    (extractLoop (resolveDestination destPath opts) (s1.readEntries.getD []) [], s1)

/-- Embedding of `QoreTarFile::extractTo`: gate, rewind, linear scan,
stream the one matching entry's payload to the caller-supplied destination
file (returned as destination/bytes written); no path-safety gate. -/
def extractTo (name destination : List Char) (s : QoreTarFile) :
    Except QErr (List Char × List UInt8) × QoreTarFile :=
  match checkOpen s false with
  | some e => (.error e, s)
  | none =>
    let s1 := reopenRead s
    match findEntry (s1.readEntries.getD []) name with
    | some e => (.ok (destination, drainData e.data []), s1)
    | none => (.error (notFoundErr name), s1)

/-- Embedding of `QoreTarFile::openInputStream`: gate, rewind, linear
scan, hand back an entry read stream positioned at the matching entry. -/
def openInputStream (name : List Char) (s : QoreTarFile) :
    Except QErr TarInputStream × QoreTarFile :=
  match checkOpen s false with
  | some e => (.error e, s)
  | none =>
    let s1 := reopenRead s
    match findEntry (s1.readEntries.getD []) name with
    | some e =>
      (.ok { coderData := e.data
             entry_size := e.size
             bytes_read := 0
             closed := false
             peekSlot := none }, s1)
    | none => (.error (notFoundErr name), s1)

/-- Embedding of `QoreTarFile::openOutputStream`: gate (write side),
option parsing for the permission, hand back a fresh entry write stream
bound to the session's write coder. -/
def openOutputStream (name : List Char) (opts : Option TarAddOptions)
    (s : QoreTarFile) : Except QErr TarOutputStream × QoreTarFile :=
  match checkOpen s true with
  | some e => (.error e, s)
  | none =>
    let mode_val := (opts.bind (fun o => o.mode)).getD 0o644
    (.ok (TarOutputStream.init (s.writeLog.getD []) name mode_val), s)

end QoreTarFile

theorem checkOpen_closed (s : QoreTarFile) (b : Bool) (hcl : s.closed = true) :
    QoreTarFile.checkOpen s b = some QoreTarFile.closedErr := by
  unfold QoreTarFile.checkOpen
  rw [if_pos hcl]

theorem checkOpen_read_open (s : QoreTarFile) (es : List RawEntry)
    (hcl : s.closed = false) (hre : s.readEntries = some es) :
    QoreTarFile.checkOpen s false = none := by
  unfold QoreTarFile.checkOpen
  rw [if_neg (by simp [hcl])]
  show (if (s.readEntries.isNone && !s.in_memory) = true then _ else _) = _
  rw [if_neg (by simp [hre])]

theorem close_of_closed (s : QoreTarFile) (hcl : s.closed = true) :
    QoreTarFile.close s = s := by
  unfold QoreTarFile.close
  rw [if_pos hcl]

theorem findEntry_all_missing (name : List Char) :
    ∀ es : List RawEntry, (∀ x ∈ es, entryNameEquals x.pathname name = false) →
      findEntry es name = none := by
  intro es
  induction es with
  | nil => intro _; rfl
  | cons e rest ih =>
    intro h
    unfold findEntry
    rw [if_neg (by simp [h e (by simp)])]
    exact ih (fun x hx => h x (by simp [hx]))

theorem findEntry_first (name : List Char) (e : RawEntry) (post : List RawEntry)
    (he : entryNameEquals e.pathname name = true) :
    ∀ pre : List RawEntry, (∀ x ∈ pre, entryNameEquals x.pathname name = false) →
      findEntry (pre ++ e :: post) name = some e := by
  intro pre
  induction pre with
  | nil =>
    intro _
    show findEntry (e :: post) name = some e
    unfold findEntry
    rw [if_pos he]
  | cons p pre ih =>
    intro h
    show findEntry (p :: (pre ++ e :: post)) name = some e
    unfold findEntry
    rw [if_neg (by simp [h p (by simp)])]
    exact ih (fun x hx => h x (by simp [hx]))

/-- C3: on an open readable session, `read(name)` rewinds and scans
linearly: the first entry whose path equals the name yields an empty
buffer when its declared size is non-positive and its full payload when
positive; when no entry matches, a TAR-ERROR whose message says the entry
was not found is raised and no data is returned. -/
theorem C3_read_semantics (s : QoreTarFile) (name : List Char) (es : List RawEntry)
    (hcl : s.closed = false) (hre : s.readEntries = some es) :
    (∀ pre e post, es = pre ++ e :: post →
      (∀ x ∈ pre, entryNameEquals x.pathname name = false) →
      entryNameEquals e.pathname name = true →
      (e.size ≤ 0 → QoreTarFile.read name s = (.ok [], QoreTarFile.reopenRead s))
      ∧ (0 < e.size → QoreTarFile.read name s = (.ok e.data, QoreTarFile.reopenRead s)))
    ∧ ((∀ x ∈ es, entryNameEquals x.pathname name = false) →
      QoreTarFile.read name s =
        (.error (QoreTarFile.notFoundErr name), QoreTarFile.reopenRead s)
      ∧ (QoreTarFile.notFoundErr name).code = "TAR-ERROR"
      ∧ (QoreTarFile.notFoundErr name).msg
        = "entry '" ++ String.mk name ++ "' not found") := by
  have hck := checkOpen_read_open s es hcl hre
  have hre' : (QoreTarFile.reopenRead s).readEntries.getD [] = es := by
    simp [QoreTarFile.reopenRead, hre]
  constructor
  · intro pre e post hes hpre he
    have hfind : findEntry ((QoreTarFile.reopenRead s).readEntries.getD []) name = some e := by
      rw [hre', hes]
      exact findEntry_first name e post he pre hpre
    constructor
    · intro hsize
      simp [QoreTarFile.read, hck, hfind, hsize]
    · intro hpos
      simp [QoreTarFile.read, hck, hfind, not_le.mpr hpos, drainData_eq]
  · intro hnone
    have hfind : findEntry ((QoreTarFile.reopenRead s).readEntries.getD []) name = none := by
      rw [hre']
      exact findEntry_all_missing name es hnone
    refine ⟨?_, rfl, rfl⟩
    simp [QoreTarFile.read, hck, hfind]

/-- C7 (amended): once the session is closed, every `checkOpen`-guarded
public operation fails with the TAR-ERROR "archive is closed" and leaves
the session unchanged; `close` on an already-closed session returns
immediately, and `close` is idempotent in general (in particular the write
coder is never closed — no footer flushed — a second time). `toData` is
not guarded by the closed flag (see the counterexample theorem). -/
theorem C7_closed_session_gate (s : QoreTarFile) (hcl : s.closed = true) :
    QoreTarFile.close s = s
    ∧ (∀ s2 : QoreTarFile, QoreTarFile.close (QoreTarFile.close s2) = QoreTarFile.close s2)
    ∧ QoreTarFile.entries s = (.error QoreTarFile.closedErr, s)
    ∧ QoreTarFile.count s = (.error QoreTarFile.closedErr, s)
    ∧ (∀ name, QoreTarFile.hasEntry name s = (.error QoreTarFile.closedErr, s))
    ∧ (∀ name, QoreTarFile.getEntry name s = (.error QoreTarFile.closedErr, s))
    ∧ (∀ name, QoreTarFile.read name s = (.error QoreTarFile.closedErr, s))
    ∧ (∀ name, QoreTarFile.readText name s = (.error QoreTarFile.closedErr, s))
    ∧ (∀ name data opts now,
        QoreTarFile.add name data opts now s = (.error QoreTarFile.closedErr, s))
    ∧ (∀ name textBytes opts now,
        QoreTarFile.addText name textBytes opts now s = (.error QoreTarFile.closedErr, s))
    ∧ (∀ name statResult,
        QoreTarFile.addFile name statResult s = (.error QoreTarFile.closedErr, s))
    ∧ (∀ name opts now,
        QoreTarFile.addDirectory name opts now s = (.error QoreTarFile.closedErr, s))
    ∧ (∀ name target opts now,
        QoreTarFile.addSymlink name target opts now s = (.error QoreTarFile.closedErr, s))
    ∧ (∀ name target opts now,
        QoreTarFile.addHardlink name target opts now s = (.error QoreTarFile.closedErr, s))
    ∧ (∀ destPath opts,
        QoreTarFile.extractAll destPath opts s = (([], some QoreTarFile.closedErr), s))
    ∧ (∀ name destination,
        QoreTarFile.extractTo name destination s = (.error QoreTarFile.closedErr, s))
    ∧ (∀ name, QoreTarFile.openInputStream name s = (.error QoreTarFile.closedErr, s))
    ∧ (∀ name opts,
        QoreTarFile.openOutputStream name opts s = (.error QoreTarFile.closedErr, s))
    ∧ QoreTarFile.closedErr.code = "TAR-ERROR" := by
  have hckF := checkOpen_closed s false hcl
  have hckT := checkOpen_closed s true hcl
  refine ⟨close_of_closed s hcl, ?_, ?_, ?_, ?_, ?_, ?_, ?_, ?_, ?_, ?_, ?_, ?_, ?_, ?_, ?_, ?_, ?_, rfl⟩
  · intro s2
    by_cases h2 : s2.closed = true
    · rw [close_of_closed s2 h2]
      exact close_of_closed s2 h2
    · have hcc : (QoreTarFile.close s2).closed = true := by
        unfold QoreTarFile.close
        rw [if_neg h2]
      exact close_of_closed _ hcc
  · simp [QoreTarFile.entries, hckF]
  · simp [QoreTarFile.count, hckF]
  · intro name
    simp [QoreTarFile.hasEntry, hckF]
  · intro name
    simp [QoreTarFile.getEntry, hckF]
  · intro name
    simp [QoreTarFile.read, hckF]
  · intro name
    simp [QoreTarFile.readText, QoreTarFile.read, hckF]
  · intro name data opts now
    simp [QoreTarFile.add, hckT]
  · intro name textBytes opts now
    simp [QoreTarFile.addText, QoreTarFile.add, hckT]
  · intro name statResult
    simp [QoreTarFile.addFile, hckT]
  · intro name opts now
    simp [QoreTarFile.addDirectory, hckT]
  · intro name target opts now
    simp [QoreTarFile.addSymlink, hckT]
  · intro name target opts now
    simp [QoreTarFile.addHardlink, hckT]
  · intro destPath opts
    simp [QoreTarFile.extractAll, hckF]
  · intro name destination
    simp [QoreTarFile.extractTo, hckF]
  · intro name
    simp [QoreTarFile.openInputStream, hckF]
  · intro name opts
    simp [QoreTarFile.openOutputStream, hckT]

/-- A closed memory-backed read session holding one archive byte. -/
def closedMemSession : QoreTarFile :=
  { filepath := []
    mode := TarMode.read
    compression_method := TarCM.none
    compression_level := -1
    format := 1
    in_memory := true
    closed := true
    readEntries := none
    writeLog := none
    memory_buffer := [7]
    memory_pos := 0
    write_close_count := 0 }

/-- Counterexample to C7 as stated: `toData` is a public operation that is
not `checkOpen`-guarded — on a closed memory-backed session it succeeds
(returns the buffer) instead of failing with a TAR-ERROR. -/
theorem C7_toData_succeeds_when_closed :
    closedMemSession.closed = true
    ∧ QoreTarFile.toData closedMemSession = (.ok [7], closedMemSession) :=
  ⟨rfl, rfl⟩

theorem C7_closed_session_gate_witness :
    QoreTarFile.close closedMemSession = closedMemSession
    ∧ QoreTarFile.entries closedMemSession = (.error QoreTarFile.closedErr, closedMemSession)
    ∧ QoreTarFile.read ("x".data) closedMemSession
      = (.error QoreTarFile.closedErr, closedMemSession) := by
  have h := C7_closed_session_gate closedMemSession rfl
  exact ⟨h.1, h.2.2.1, h.2.2.2.2.2.2.1 ("x".data)⟩

theorem finalizeWriteCoder_buffer (s : QoreTarFile) :
    (QoreTarFile.finalizeWriteCoder s).memory_buffer = s.memory_buffer := by
  unfold QoreTarFile.finalizeWriteCoder
  split
  · rfl
  · rfl

/-- C8 (amended): `toData` fails with a TAR-ERROR exactly when the session
is not memory-backed; on any memory-backed session it succeeds, first
finalizing (closing) the write coder when the session is in write mode
with the coder still open, then returning a snapshot of the accumulated
in-memory buffer. -/
theorem C8_toData_memory_only (s : QoreTarFile) :
    (s.in_memory = false →
      QoreTarFile.toData s =
        (.error ⟨"TAR-ERROR", "cannot get binary data from file-based archive"⟩, s))
    ∧ (s.in_memory = true →
      QoreTarFile.toData s = (.ok s.memory_buffer, QoreTarFile.finalizeWriteCoder s))
    ∧ (QoreTarFile.finalizeWriteCoder s).memory_buffer = s.memory_buffer
    ∧ (s.mode = TarMode.write → s.writeLog.isSome = true →
      (QoreTarFile.finalizeWriteCoder s).writeLog = none
      ∧ (QoreTarFile.finalizeWriteCoder s).write_close_count = s.write_close_count + 1) := by
  refine ⟨?_, ?_, finalizeWriteCoder_buffer s, ?_⟩
  · intro h
    simp [QoreTarFile.toData, h]
  · intro h
    simp [QoreTarFile.toData, h, finalizeWriteCoder_buffer]
  · intro hm hw
    unfold QoreTarFile.finalizeWriteCoder
    rw [if_pos (by simp [hm, hw])]
    exact ⟨rfl, rfl⟩

/-- An open memory-backed read-mode session (constructed from a binary). -/
def memReadSession : QoreTarFile :=
  { closedMemSession with
    closed := false
    readEntries := some []
    memory_buffer := [1, 2] }

/-- Counterexample to C8 as stated: a memory-backed session that is in
read mode — not a write session — where `toData` succeeds instead of
failing with a TAR-ERROR. -/
theorem C8_read_session_toData_succeeds :
    memReadSession.in_memory = true
    ∧ memReadSession.mode ≠ TarMode.write
    ∧ QoreTarFile.toData memReadSession = (.ok [1, 2], memReadSession) :=
  ⟨rfl, by decide, rfl⟩

/-- An open file-backed write session. -/
def fileWriteSession : QoreTarFile :=
  { closedMemSession with
    in_memory := false
    closed := false
    mode := TarMode.write
    writeLog := some []
    filepath := "a.tar".data
    memory_buffer := [] }

/-- An open memory-backed write session. -/
def memWriteSession : QoreTarFile :=
  { closedMemSession with
    closed := false
    mode := TarMode.write
    writeLog := some []
    memory_buffer := [9] }

theorem C8_toData_memory_only_witness :
    QoreTarFile.toData fileWriteSession =
      (.error ⟨"TAR-ERROR", "cannot get binary data from file-based archive"⟩, fileWriteSession)
    ∧ QoreTarFile.toData memWriteSession =
      (.ok memWriteSession.memory_buffer, QoreTarFile.finalizeWriteCoder memWriteSession)
    ∧ (QoreTarFile.finalizeWriteCoder memWriteSession).writeLog = none :=
  ⟨(C8_toData_memory_only fileWriteSession).1 rfl,
   (C8_toData_memory_only memWriteSession).2.1 rfl,
   ((C8_toData_memory_only memWriteSession).2.2.2 rfl rfl).1⟩

theorem entryCheck_eq_none (e : RawEntry) (h : entrySafe e = true) :
    entryCheck e = none := by
  have h' := h
  simp only [entrySafe, Bool.and_eq_true, Bool.not_eq_true'] at h'
  obtain ⟨⟨hp, hh⟩, hs⟩ := h'
  simp [entryCheck, hp, hh, hs]

theorem entryCheck_violation (e : RawEntry) (h : entrySafe e = false) :
    ∃ m, entryCheck e = some ⟨"TAR-SECURITY-ERROR", m⟩ := by
  unfold entryCheck
  by_cases hp : isPathSafe e.pathname = true
  · by_cases hh : hardlinkViolation e = true
    · exact ⟨_, by rw [if_neg (by simp [hp]), if_pos hh]⟩
    · by_cases hs : symlinkViolation e = true
      · exact ⟨_, by rw [if_neg (by simp [hp]), if_neg hh, if_pos hs]⟩
      · exfalso
        have hh' : hardlinkViolation e = false := by
          revert hh
          cases hardlinkViolation e <;> simp
        have hs' : symlinkViolation e = false := by
          revert hs
          cases symlinkViolation e <;> simp
        rw [entrySafe, hp, hh', hs'] at h
        simp at h
  · have hp' : isPathSafe e.pathname = false := by
      revert hp
      cases isPathSafe e.pathname <;> simp
    exact ⟨_, by rw [if_pos (by simp [hp'])]⟩

theorem extractLoop_stops (d : List Char) (e : RawEntry) (rest : List RawEntry)
    (acc : List DiskAction) (err : QErr) (hce : entryCheck e = some err) :
    extractLoop d (e :: rest) acc = (acc, some err) := by
  unfold extractLoop
  rw [hce]

theorem extractLoop_step_safe (d : List Char) (e : RawEntry) (rest : List RawEntry)
    (acc : List DiskAction) (hce : entryCheck e = none) :
    extractLoop d (e :: rest) acc = extractLoop d rest (acc ++ extractEntryActions d e) := by
  conv_lhs => unfold extractLoop
  rw [hce]

theorem extractLoop_safe_prefix (d : List Char) :
    ∀ (pre rest : List RawEntry) (acc : List DiskAction),
      (∀ x ∈ pre, entrySafe x = true) →
      extractLoop d (pre ++ rest) acc
        = extractLoop d rest (acc ++ pre.flatMap (extractEntryActions d)) := by
  intro pre
  induction pre with
  | nil =>
    intro rest acc _
    simp
  | cons e pre ih =>
    intro rest acc h
    rw [List.cons_append,
      extractLoop_step_safe d e (pre ++ rest) acc (entryCheck_eq_none e (h e (by simp)))]
    rw [ih rest _ (fun x hx => h x (by simp [hx]))]
    simp [List.append_assoc]

/-- C2: during `extractAll`, each entry is checked (path, then a present
non-empty hardlink target, then a present non-empty symlink target) with
`isPathSafe` before any disk action for that entry; on the first entry
that fails a check, a TAR-SECURITY-ERROR (a code distinct from the generic
TAR-ERROR) is raised and the loop stops in place: the disk actions are
exactly those of the safe prefix already processed, and no entry at or
after the violation contributes any action. -/
theorem C2_extractAll_security (s : QoreTarFile) (destPath : Option (List Char))
    (opts : Option TarExtractOptions) (pre : List RawEntry) (bad : RawEntry)
    (post : List RawEntry) (hcl : s.closed = false)
    (hre : s.readEntries = some (pre ++ bad :: post))
    (hpre : ∀ x ∈ pre, entrySafe x = true) (hbad : entrySafe bad = false) :
    (∃ m, QoreTarFile.extractAll destPath opts s =
      ((pre.flatMap (extractEntryActions (resolveDestination destPath opts)),
        some ⟨"TAR-SECURITY-ERROR", m⟩), QoreTarFile.reopenRead s))
    ∧ ("TAR-SECURITY-ERROR" : String) ≠ "TAR-ERROR" := by
  have hck := checkOpen_read_open s _ hcl hre
  obtain ⟨m, hbadCheck⟩ := entryCheck_violation bad hbad
  refine ⟨⟨m, ?_⟩, by decide⟩
  have hre' : (QoreTarFile.reopenRead s).readEntries.getD [] = pre ++ bad :: post := by
    simp [QoreTarFile.reopenRead, hre]
  simp only [QoreTarFile.extractAll, hck]
  rw [hre', extractLoop_safe_prefix _ pre (bad :: post) [] hpre,
    extractLoop_stops _ bad post _ _ hbadCheck]
  simp

/-- A safe one-byte regular-file entry. -/
def goodEntry : RawEntry :=
  { emptyHardlinkEntry with
    pathname := "ok.txt".data
    hardlink := none
    size := 1
    data := [42] }

/-- An entry whose path is a parent-traversal attack. -/
def evilEntry : RawEntry :=
  { emptyHardlinkEntry with
    pathname := "../evil".data
    hardlink := none }

/-- An open memory-backed read session over [goodEntry, evilEntry]. -/
def readSession : QoreTarFile :=
  { closedMemSession with
    closed := false
    readEntries := some [goodEntry, evilEntry]
    memory_pos := 3 }

theorem C2_extractAll_security_witness :
    (∃ m, QoreTarFile.extractAll none none readSession =
      (([goodEntry].flatMap (extractEntryActions (resolveDestination none none)),
        some ⟨"TAR-SECURITY-ERROR", m⟩), QoreTarFile.reopenRead readSession))
    ∧ ("TAR-SECURITY-ERROR" : String) ≠ "TAR-ERROR" :=
  C2_extractAll_security readSession none none [goodEntry] evilEntry [] rfl rfl
    (by decide) (by decide)

theorem C3_read_semantics_witness :
    QoreTarFile.read ("ok.txt".data) readSession
      = (.ok [42], QoreTarFile.reopenRead readSession)
    ∧ QoreTarFile.read ("nope".data) readSession
      = (.error (QoreTarFile.notFoundErr ("nope".data)), QoreTarFile.reopenRead readSession) := by
  have h := C3_read_semantics readSession ("ok.txt".data) [goodEntry, evilEntry] rfl rfl
  have h2 := C3_read_semantics readSession ("nope".data) [goodEntry, evilEntry] rfl rfl
  exact ⟨(h.1 [] goodEntry [evilEntry] rfl (by simp) (by decide)).2 (by decide),
    (h2.2 (by decide)).1⟩
